import Mathlib

/-!
Verification development for the gitautosync repository
(src/gitautosync/__init__.py).

The module orchestrates an external git tool.  We embed it shallowly:

* an executed external command is a list of argv strings (`Cmd`);
* the environment (`Env`) answers the queries the code makes of the
  outside world: whether the local directory exists, the list of paths
  extracted from the verbose status output by `DELETED_FILE_REGEX`
  (`subprocess.check_output` based, not part of the yielded stream), the
  porcelain status output, and an exit-code oracle `exit` indexed by the
  position of the command in the run (the k-th executed command exits
  with code `exit k`);
* each generator method becomes a function from a `RunState` (execution
  counter plus the trace of commands executed so far) to a new state
  paired with an optional `GitErr`, the model of a propagating
  `subprocess.CalledProcessError` carrying the command and returncode.

`execute_cmd` itself is additionally embedded at the character level
(`splitCRLF`, `finalBuf`, `execute_cmd`) to capture its line splitting
on both newline and carriage-return boundaries, and `MODIFIED_FILE_REGEX`
is embedded as a character-level matcher with Python MULTILINE search
semantics (`repo_is_dirty`).  The whitespace class is restricted to the
ASCII part of Python \s, which covers every character these claims and
the porcelain format involve.
-/

/-- An external command, as the argv list handed to `subprocess`. -/
abbrev Cmd := List String

/-- Model of `subprocess.CalledProcessError(ret, cmd)`. -/
structure GitErr where
  cmd : Cmd
  returncode : Nat
deriving DecidableEq

/-- State threaded through a run: how many external commands have been
executed so far, and the trace of commands executed (in order). -/
structure RunState where
  k : Nat
  trace : List Cmd
deriving DecidableEq

/-- The outside world as the code queries it. -/
structure Env where
  repoExists : Bool
  deletedFiles : List String
  porcelain : String
  exit : Nat → Nat

/-- Run one external command through the execute-and-raise-on-nonzero
contract of `execute_cmd`: the command enters the trace (its echo line is
yielded before the process result is known), and a nonzero exit becomes a
propagating `GitErr`. -/
def runCmd (env : Env) (c : Cmd) (s : RunState) : RunState × Option GitErr :=
  let r := env.exit s.k
  (⟨s.k + 1, s.trace ++ [c]⟩, if r = 0 then none else some ⟨c, r⟩)

/-- Sequencing: a propagating error aborts the continuation, matching an
uncaught exception crossing a `yield from`. -/
def seqE (r : RunState × Option GitErr) (f : RunState → RunState × Option GitErr) :
    RunState × Option GitErr :=
  match r with
  | (s, none) => f s
  | (s, some e) => (s, some e)

/- The argv lists built by the source, with its format strings applied. -/

def gitCloneCmd (url dir : String) : Cmd := ["git", "clone", url, dir]

def gitCheckoutBranchCmd (b : String) : Cmd := ["git", "checkout", b]

def gitFetchCmd : Cmd := ["git", "fetch"]

def gitCatFileCmd (b f : String) : Cmd :=
  ["git", "cat-file", "-e", "origin/" ++ b ++ ":" ++ f]

def gitCheckoutFileCmd (f : String) : Cmd := ["git", "checkout", "--", f]

def gitAddCmd : Cmd := ["git", "add", "-A"]

def gitConfigEmailCmd : Cmd :=
  ["git", "config", "user.email", "\"gitautopull@email.com\""]

def gitConfigNameCmd : Cmd :=
  ["git", "config", "user.name", "\"GitAutoPull\""]

def gitCommitCmd : Cmd := ["git", "commit", "-m", "WIP"]

def gitMergeCmd (b : String) : Cmd := ["git", "merge", "-Xours", "origin/" ++ b]

/-! ## MODIFIED_FILE_REGEX

The source classifies dirtiness by
`re.search(r"^\s*M\s+(.*)$", output, re.MULTILINE)`.
`^` anchors at position 0 and after every newline; `\s` also matches the
newline itself, so the whitespace parts of the pattern may cross line
boundaries; `(.*)$` always succeeds from any position since `.` stops at
a newline and `$` matches before a newline or at the end. -/

/-- The ASCII characters of the Python `\s` class. -/
def isPyWS (c : Char) : Bool :=
  c = ' ' || c = '\t' || c = '\n' || c = '\r' || c = '\x0b' || c = '\x0c'

/-- Whether `MODIFIED_FILE_REGEX` matches at a given anchor position,
over the remainder of the whole string: skip whitespace (possibly across
newlines), require the letter M, then at least one whitespace character;
the trailing `(.*)$` part then always succeeds. -/
def modAnchorMatch (cs : List Char) : Bool :=
  match cs.dropWhile isPyWS with
  | a :: d :: _ => a = 'M' && isPyWS d
  | _ => false

/-- The anchor positions after position 0: `re.MULTILINE` makes `^` match
right after every newline.  Tries the modified-file pattern at each. -/
def searchFrom : List Char → Bool
  | [] => false
  | c :: rest => (c = '\n' && modAnchorMatch rest) || searchFrom rest

/-- `re.search` of `MODIFIED_FILE_REGEX` over the whole text. -/
def regexSearchModified (cs : List Char) : Bool :=
  modAnchorMatch cs || searchFrom cs

/-- `GitAutoSync.repo_is_dirty`, as a function of the porcelain status
output it reads: true iff `MODIFIED_FILE_REGEX.search` finds a match. -/
def repo_is_dirty (out : String) : Bool :=
  regexSearchModified out.data

/-- Split a text into its newline-separated lines (the line structure
that `re.MULTILINE` anchors refer to). -/
def splitLines : List Char → List (List Char)
  | [] => [[]]
  | c :: rest =>
    if c = '\n' then [] :: splitLines rest
    else
      match splitLines rest with
      | [] => [[c]]
      | l :: ls => (c :: l) :: ls

/-- Modelled from the spec words for 4.1: a line consisting of optional
leading whitespace, the change letter M, whitespace, then the path
(the path part of the pattern may be empty). -/
def lineIsModified (l : List Char) : Bool :=
  match l.dropWhile isPyWS with
  | a :: d :: _ => a = 'M' && isPyWS d
  | _ => false

/-- A line that is optional whitespace followed by a bare final M.  When
such a line is not the last one, the regex crosses its newline with
`\s+` and reports a match that no single line exhibits. -/
def lineIsBareM (l : List Char) : Bool :=
  match l.dropWhile isPyWS with
  | [a] => a = 'M'
  | _ => false

/-! ## execute_cmd at the character level

The generator echoes the command, then reads the combined output one
character at a time into a buffer, yielding the buffer at every newline,
and also just before appending a character that follows a carriage
return (unless that character is the newline of a CRLF pair).  The loop
ends with no final flush; the `finally` block waits and raises on a
nonzero exit. -/

/-- The sequence of lines yielded for a given combined output, starting
from buffer `buf` and previously-read character `last` (initially
`none`, as `c_last` starts as the empty string). -/
def splitCRLF : List Char → List Char → Option Char → List (List Char)
  | [], _, _ => []
  | c :: rest, buf, last =>
    if last = some '\r' ∧ buf ≠ [] ∧ c ≠ '\n' then
      buf :: splitCRLF rest [c] (some c)
    else if c = '\n' then
      (buf ++ [c]) :: splitCRLF rest [] (some c)
    else
      splitCRLF rest (buf ++ [c]) (some c)

/-- The buffer content left unflushed when the output stream ends. -/
def finalBuf : List Char → List Char → Option Char → List Char
  | [], buf, _ => buf
  | c :: rest, buf, last =>
    if last = some '\r' ∧ buf ≠ [] ∧ c ≠ '\n' then
      finalBuf rest [c] (some c)
    else if c = '\n' then
      finalBuf rest [] (some c)
    else
      finalBuf rest (buf ++ [c]) (some c)

/-- The observable behavior of one `execute_cmd` call: the yielded lines
and the error (if any) raised after the process exits. -/
structure CmdResult where
  lines : List String
  error : Option GitErr
deriving DecidableEq

/-- `execute_cmd(cmd)`, as a function of the argv list, the combined
stdout/stderr character stream, and the process returncode. -/
def execute_cmd (cmd : Cmd) (output : List Char) (returncode : Nat) : CmdResult :=
  { lines := ("$ " ++ String.intercalate " " cmd ++ "\n") ::
      (splitCRLF output [] none).map String.mk
  , error := if returncode = 0 then none else some ⟨cmd, returncode⟩ }

/-! ## The GitAutoSync class -/

structure GitAutoSync where
  git_url : String
  branch_name : String
  repo_dir : String
deriving DecidableEq

/-- The constructor: `assert git_url and branch_name` rejects a falsy
(empty) url or branch name before the fields are set; `repo_dir` is
stored unchecked. -/
def GitAutoSync.init (git_url branch_name repo_dir : String) :
    Option GitAutoSync :=
  if git_url ≠ "" ∧ branch_name ≠ "" then
    some ⟨git_url, branch_name, repo_dir⟩
  else
    none

/-- `_make_commit`: add -A, set the fixed identity, commit WIP. -/
def make_commit (g : GitAutoSync) (env : Env) (s : RunState) :
    RunState × Option GitErr :=
  seqE (runCmd env gitAddCmd s) fun s1 =>
  seqE (runCmd env gitConfigEmailCmd s1) fun s2 =>
  seqE (runCmd env gitConfigNameCmd s2) fun s3 =>
  runCmd env gitCommitCmd s3

/-- `_save_local_changes`: checkout the branch, then commit. -/
def save_local_changes (g : GitAutoSync) (env : Env) (s : RunState) :
    RunState × Option GitErr :=
  seqE (runCmd env (gitCheckoutBranchCmd g.branch_name) s) fun s1 =>
  make_commit g env s1

/-- `_pull_and_resolve_conflicts`: checkout, fetch, merge; a merge
failure with returncode 1 triggers one commit-and-retry, whose own
failures propagate; any other merge failure re-raises at once. -/
def pull_and_resolve_conflicts (g : GitAutoSync) (env : Env) (s : RunState) :
    RunState × Option GitErr :=
  seqE (runCmd env (gitCheckoutBranchCmd g.branch_name) s) fun s1 =>
  seqE (runCmd env gitFetchCmd s1) fun s2 =>
    match runCmd env (gitMergeCmd g.branch_name) s2 with
    | (s3, none) => (s3, none)
    | (s3, some e) =>
      if e.returncode = 1 then
        seqE (make_commit g env s3) fun s4 =>
        runCmd env (gitMergeCmd g.branch_name) s4
      else
        (s3, some e)

/-- `_raise_error_if_git_file_not_exists`: fetch first, tolerating only
a fetch returncode of 1; then check the object with cat-file -e, whose
failure propagates to the caller. -/
def raise_error_if_git_file_not_exists (g : GitAutoSync) (env : Env)
    (f : String) (s : RunState) : RunState × Option GitErr :=
  match runCmd env gitFetchCmd s with
  | (s1, none) => runCmd env (gitCatFileCmd g.branch_name f) s1
  | (s1, some e) =>
    if e.returncode = 1 then runCmd env (gitCatFileCmd g.branch_name f) s1
    else (s1, some e)

/-- The body of the per-file try block in `_reset_deleted_files`: the
existence check, then the restoring checkout; an exception from the
check skips the checkout. -/
def reset_one_file (g : GitAutoSync) (env : Env) (f : String) (s : RunState) :
    RunState × Option GitErr :=
  seqE (raise_error_if_git_file_not_exists g env f s) fun s1 =>
  runCmd env (gitCheckoutFileCmd f) s1

/-- The loop of `_reset_deleted_files`: each file is processed in the
try block; a `CalledProcessError` with returncode 128 is swallowed and
the loop continues, any other error re-raises and aborts the run. -/
def reset_deleted_files_loop (g : GitAutoSync) (env : Env) :
    List String → RunState → RunState × Option GitErr
  | [], s => (s, none)
  | f :: rest, s =>
    match reset_one_file g env f s with
    | (s1, none) => reset_deleted_files_loop g env rest s1
    | (s1, some e) =>
      if e.returncode = 128 then reset_deleted_files_loop g env rest s1
      else (s1, some e)

/-- `_reset_deleted_files`: the deleted paths come from
`DELETED_FILE_REGEX.findall` over the verbose status output, modelled as
the environment query `deletedFiles`. -/
def reset_deleted_files (g : GitAutoSync) (env : Env) (s : RunState) :
    RunState × Option GitErr :=
  reset_deleted_files_loop g env env.deletedFiles s

/-- `_update_repo`: reset deleted files, then save local changes exactly
when the fresh porcelain status is classified dirty, then pull. -/
def update_repo (g : GitAutoSync) (env : Env) (s : RunState) :
    RunState × Option GitErr :=
  seqE (reset_deleted_files g env s) fun s1 =>
  if repo_is_dirty env.porcelain then
    seqE (save_local_changes g env s1) fun s2 =>
    pull_and_resolve_conflicts g env s2
  else
    pull_and_resolve_conflicts g env s1

/-- `_initialize_repo`: clone, then checkout the branch. -/
def initialize_repo (g : GitAutoSync) (env : Env) (s : RunState) :
    RunState × Option GitErr :=
  seqE (runCmd env (gitCloneCmd g.git_url g.repo_dir) s) fun s1 =>
  runCmd env (gitCheckoutBranchCmd g.branch_name) s1

/-- `pull_from_remote`: clone-and-checkout when the local directory does
not exist, the update path otherwise. -/
def pull_from_remote (g : GitAutoSync) (env : Env) (s : RunState) :
    RunState × Option GitErr :=
  if env.repoExists then update_repo g env s
  else initialize_repo g env s

/-! ## Expected traces of the all-commands-succeed runs -/

/-- Commands issued by the reset loop when every command exits 0:
fetch, existence check and restore for each deleted file in order. -/
def resetOkTrace (b : String) : List String → List Cmd
  | [] => []
  | f :: rest =>
    gitFetchCmd :: gitCatFileCmd b f :: gitCheckoutFileCmd f ::
      resetOkTrace b rest

/-- Commands issued by a successful `_save_local_changes`. -/
def saveTrace (b : String) : List Cmd :=
  [gitCheckoutBranchCmd b, gitAddCmd, gitConfigEmailCmd, gitConfigNameCmd,
   gitCommitCmd]

/-- Commands issued by a conflict-free `_pull_and_resolve_conflicts`. -/
def pullOkTrace (b : String) : List Cmd :=
  [gitCheckoutBranchCmd b, gitFetchCmd, gitMergeCmd b]

/-! ## The command-line interface -/

structure ParsedArgs where
  git_url : String
  branch_name : String
  repo_dir : String
deriving DecidableEq

/-- Look up a provided option by its flag name. -/
def lookupArg (provided : List (String × String)) (flag : String) :
    Option String :=
  (provided.find? (fun p => p.1 = flag)).map (fun p => p.2)

/-- The argparse configuration of `main`: `--git-url` is required, and
the parse fails without it; `--branch-name` defaults to "master" and
`--repo-dir` to "./". -/
def parse_main_args (provided : List (String × String)) : Option ParsedArgs :=
  match lookupArg provided "--git-url" with
  | none => none
  | some u =>
    some ⟨u, (lookupArg provided "--branch-name").getD "master",
      (lookupArg provided "--repo-dir").getD "./"⟩

/-! ## Concrete instances used by witnesses and counterexamples -/

/-- A concrete sync target. -/
def gDemo : GitAutoSync := ⟨"https://example.com/r.git", "master", "repo"⟩

/-- One deleted file, every command succeeding. -/
def envResetOk : Env := ⟨true, ["a.txt"], "", fun _ => 0⟩

/-- One deleted file whose restoring checkout (the third command) exits
with returncode 128. -/
def envCheckout128 : Env :=
  ⟨true, ["a.txt"], "", fun k => if k = 2 then 128 else 0⟩

/-! ## C10: constructor validation -/

/-- C10: the GitAutoSync constructor asserts that both the git URL and
the branch name are non-empty, so constructing an instance with an empty
(falsy) git URL or branch name fails the assertion, while an empty
repository directory is accepted unchecked. -/
theorem gitautosync_init_validation (u b d : String) :
    GitAutoSync.init "" b d = none ∧
    GitAutoSync.init u "" d = none ∧
    (u ≠ "" → b ≠ "" → GitAutoSync.init u b d = some ⟨u, b, d⟩) ∧
    (u ≠ "" → b ≠ "" → GitAutoSync.init u b "" = some ⟨u, b, ""⟩) := by
  refine ⟨?_, ?_, fun hu hb => ?_, fun hu hb => ?_⟩
  · simp only [GitAutoSync.init]
    rw [if_neg (fun h => h.1 rfl)]
  · simp only [GitAutoSync.init]
    rw [if_neg (fun h => h.2 rfl)]
  · simp only [GitAutoSync.init]
    rw [if_pos ⟨hu, hb⟩]
  · simp only [GitAutoSync.init]
    rw [if_pos ⟨hu, hb⟩]

/-- Witness for C10 at concrete strings, in particular accepting an
empty repository directory. -/
theorem gitautosync_init_validation_witness :
    GitAutoSync.init "https://example.com/r.git" "master" "" =
      some ⟨"https://example.com/r.git", "master", ""⟩ :=
  (gitautosync_init_validation "https://example.com/r.git" "master" "d").2.2.2
    (by decide) (by decide)

/-! ## C7: command-line interface -/

/-- C7: the command-line interface requires the remote-URL argument (the
parse fails without it), accepts an optional branch name defaulting to
"master" (the primary branch name of the source repositories it was
written for), and accepts an optional local directory defaulting to the
current directory. -/
theorem main_cli_arguments :
    parse_main_args [] = none ∧
    (∀ u, parse_main_args [("--git-url", u)] = some ⟨u, "master", "./"⟩) ∧
    (∀ u b d, parse_main_args
        [("--git-url", u), ("--branch-name", b), ("--repo-dir", d)] =
      some ⟨u, b, d⟩) := by
  exact ⟨rfl, fun u => rfl, fun u b d => rfl⟩

/-! ## C3: per-file policy of the existence check -/

/-- C3: for a path listed as locally deleted, the loop checks whether
the path exists at the remote branch tip; when the check succeeds the
path is restored with a checkout from the index/HEAD and the loop
continues, when the check fails with the not-found returncode 128 the
path is skipped silently with no restore and no error, and when the
check fails with any other returncode the error propagates and aborts
the run, leaving the remaining files unprocessed. -/
theorem reset_deleted_files_check_policy (g : GitAutoSync) (env : Env)
    (f : String) (rest : List String) (s : RunState)
    (hfetch : env.exit s.k = 0) :
    (env.exit (s.k + 1) = 0 → env.exit (s.k + 2) = 0 →
      reset_deleted_files_loop g env (f :: rest) s =
        reset_deleted_files_loop g env rest
          ⟨s.k + 3, s.trace ++
            [gitFetchCmd, gitCatFileCmd g.branch_name f,
             gitCheckoutFileCmd f]⟩) ∧
    (env.exit (s.k + 1) = 128 →
      reset_deleted_files_loop g env (f :: rest) s =
        reset_deleted_files_loop g env rest
          ⟨s.k + 2, s.trace ++ [gitFetchCmd, gitCatFileCmd g.branch_name f]⟩) ∧
    (∀ c, env.exit (s.k + 1) = c → c ≠ 0 → c ≠ 128 →
      reset_deleted_files_loop g env (f :: rest) s =
        (⟨s.k + 2, s.trace ++ [gitFetchCmd, gitCatFileCmd g.branch_name f]⟩,
         some ⟨gitCatFileCmd g.branch_name f, c⟩)) := by
  refine ⟨fun h1 h2 => ?_, fun h1 => ?_, fun c h1 hc0 hc128 => ?_⟩
  · simp [reset_deleted_files_loop, reset_one_file,
      raise_error_if_git_file_not_exists, runCmd, seqE, hfetch, h1,
      Nat.add_assoc, h2]
  · simp [reset_deleted_files_loop, reset_one_file,
      raise_error_if_git_file_not_exists, runCmd, seqE, hfetch, h1,
      Nat.add_assoc]
  · simp [reset_deleted_files_loop, reset_one_file,
      raise_error_if_git_file_not_exists, runCmd, seqE, hfetch, h1, hc0,
      hc128, Nat.add_assoc]

/-- Witness for C3: the skip branch at returncode 128 on a concrete
environment whose cat-file check fails with 128. -/
theorem reset_deleted_files_check_policy_witness :
    reset_deleted_files_loop gDemo
        ⟨true, ["a.txt"], "", fun k => if k = 1 then 128 else 0⟩
        ["a.txt"] ⟨0, []⟩ =
      reset_deleted_files_loop gDemo
        ⟨true, ["a.txt"], "", fun k => if k = 1 then 128 else 0⟩ []
        ⟨0 + 2, [] ++ [gitFetchCmd, gitCatFileCmd gDemo.branch_name "a.txt"]⟩ :=
  (reset_deleted_files_check_policy gDemo
    ⟨true, ["a.txt"], "", fun k => if k = 1 then 128 else 0⟩
    "a.txt" [] ⟨0, []⟩ rfl).2.1 rfl

/-! ## C8: the 128 tolerance also covers the restore step -/

/-- C8: the restore command runs inside the same per-file exception
handler as the existence check, so a checkout that itself fails with
returncode 128 is silently swallowed and the loop proceeds to the next
deleted file. -/
theorem reset_checkout_failure_swallowed (g : GitAutoSync) (env : Env)
    (f : String) (rest : List String) (s : RunState)
    (h0 : env.exit s.k = 0) (h1 : env.exit (s.k + 1) = 0)
    (h2 : env.exit (s.k + 2) = 128) :
    reset_deleted_files_loop g env (f :: rest) s =
      reset_deleted_files_loop g env rest
        ⟨s.k + 3, s.trace ++
          [gitFetchCmd, gitCatFileCmd g.branch_name f,
           gitCheckoutFileCmd f]⟩ := by
  simp [reset_deleted_files_loop, reset_one_file,
    raise_error_if_git_file_not_exists, runCmd, seqE, h0, h1, Nat.add_assoc,
    h2]

/-- Witness for C8: with one deleted file whose checkout exits 128, the
whole reset step completes with no propagating error. -/
theorem reset_checkout_failure_swallowed_witness :
    reset_deleted_files_loop gDemo envCheckout128 ["a.txt"] ⟨0, []⟩ =
      reset_deleted_files_loop gDemo envCheckout128 []
        ⟨0 + 3, [] ++ [gitFetchCmd, gitCatFileCmd gDemo.branch_name "a.txt",
          gitCheckoutFileCmd "a.txt"]⟩ :=
  reset_checkout_failure_swallowed gDemo envCheckout128 "a.txt" [] ⟨0, []⟩
    rfl rfl rfl

/-! ## C5: fetch failures during the existence check -/

/-- The fetch of the existence-check path failing with returncode 128:
because the per-file handler of the reset loop swallows every
returncode-128 error, this fetch failure is not fatal to the run. -/
def envFetch128 : Env :=
  ⟨true, ["f.txt"], "", fun k => if k = 0 then 128 else 0⟩

/-- Counterexample to C5 as stated: the first executed command is the
fetch of the existence-check path and it exits 128 — a nonzero status
other than the tolerated 1 — yet the whole run completes with no
propagating error, so the failure is not fatal. -/
theorem fetch_128_not_fatal_counterexample :
    envFetch128.exit 0 = 128 ∧
    (pull_from_remote gDemo envFetch128 ⟨0, []⟩).1.trace.head? =
      some gitFetchCmd ∧
    (pull_from_remote gDemo envFetch128 ⟨0, []⟩).2 = none := by
  decide

/-- C5 amended: a fetch exiting 1 during the existence-check path is
tolerated and ignored, with the run continuing to the existence check; a
fetch failing with any other nonzero status propagates out of the
existence check, and aborts the run unless that status is 128, in which
case the per-file handler of the reset loop swallows it and skips the
file. -/
theorem fetch_failure_tolerance (g : GitAutoSync) (env : Env) (f : String)
    (rest : List String) (s : RunState) :
    (env.exit s.k = 1 →
      raise_error_if_git_file_not_exists g env f s =
        runCmd env (gitCatFileCmd g.branch_name f)
          ⟨s.k + 1, s.trace ++ [gitFetchCmd]⟩) ∧
    (∀ c, env.exit s.k = c → c ≠ 0 → c ≠ 1 →
      raise_error_if_git_file_not_exists g env f s =
        (⟨s.k + 1, s.trace ++ [gitFetchCmd]⟩, some ⟨gitFetchCmd, c⟩)) ∧
    (∀ c, env.exit s.k = c → c ≠ 0 → c ≠ 1 → c ≠ 128 →
      reset_deleted_files_loop g env (f :: rest) s =
        (⟨s.k + 1, s.trace ++ [gitFetchCmd]⟩, some ⟨gitFetchCmd, c⟩)) ∧
    (env.exit s.k = 128 →
      reset_deleted_files_loop g env (f :: rest) s =
        reset_deleted_files_loop g env rest
          ⟨s.k + 1, s.trace ++ [gitFetchCmd]⟩) := by
  refine ⟨fun h => ?_, fun c h hc0 hc1 => ?_, fun c h hc0 hc1 hc128 => ?_,
    fun h => ?_⟩
  · simp [raise_error_if_git_file_not_exists, runCmd, seqE, h]
  · simp [raise_error_if_git_file_not_exists, runCmd, seqE, h, hc0, hc1]
  · simp [reset_deleted_files_loop, reset_one_file,
      raise_error_if_git_file_not_exists, runCmd, seqE, h, hc0, hc1, hc128]
  · simp [reset_deleted_files_loop, reset_one_file,
      raise_error_if_git_file_not_exists, runCmd, seqE, h]

/-- Witness for C5 (amended) at a concrete fetch returncode 5: the run
aborts with the fetch error. -/
theorem fetch_failure_tolerance_witness :
    reset_deleted_files_loop gDemo
        ⟨true, ["f.txt"], "", fun k => if k = 0 then 5 else 0⟩
        ["f.txt"] ⟨0, []⟩ =
      (⟨0 + 1, [] ++ [gitFetchCmd]⟩, some ⟨gitFetchCmd, 5⟩) :=
  (fetch_failure_tolerance gDemo
    ⟨true, ["f.txt"], "", fun k => if k = 0 then 5 else 0⟩
    "f.txt" [] ⟨0, []⟩).2.2.1 5 rfl (by decide) (by decide) (by decide)

/-! ## C2: the merge retry policy -/

/-- C2: in pull-and-resolve, a merge succeeding after checkout and fetch
ends the step; a merge failing with the conflict returncode 1 triggers
exactly one remediation — the checkpoint commit sequence followed by one
re-run of the same merge command, whose failure propagates with no
further retries; a merge failure with any other returncode propagates
immediately with no remediation commands. -/
theorem pull_and_resolve_retry_policy (g : GitAutoSync) (env : Env)
    (h0 : env.exit 0 = 0) (h1 : env.exit 1 = 0) :
    (env.exit 2 = 0 →
      pull_and_resolve_conflicts g env ⟨0, []⟩ =
        (⟨3, [gitCheckoutBranchCmd g.branch_name, gitFetchCmd,
          gitMergeCmd g.branch_name]⟩, none)) ∧
    (env.exit 2 = 1 →
      env.exit 3 = 0 → env.exit 4 = 0 → env.exit 5 = 0 → env.exit 6 = 0 →
      pull_and_resolve_conflicts g env ⟨0, []⟩ =
        (⟨8, [gitCheckoutBranchCmd g.branch_name, gitFetchCmd,
          gitMergeCmd g.branch_name, gitAddCmd, gitConfigEmailCmd,
          gitConfigNameCmd, gitCommitCmd, gitMergeCmd g.branch_name]⟩,
         if env.exit 7 = 0 then none
         else some ⟨gitMergeCmd g.branch_name, env.exit 7⟩)) ∧
    (∀ c, env.exit 2 = c → c ≠ 0 → c ≠ 1 →
      pull_and_resolve_conflicts g env ⟨0, []⟩ =
        (⟨3, [gitCheckoutBranchCmd g.branch_name, gitFetchCmd,
          gitMergeCmd g.branch_name]⟩,
         some ⟨gitMergeCmd g.branch_name, c⟩)) := by
  refine ⟨fun h2 => ?_, fun h2 h3 h4 h5 h6 => ?_, fun c h2 hc0 hc1 => ?_⟩
  · simp [pull_and_resolve_conflicts, runCmd, seqE, h0, h1, h2]
  · simp [pull_and_resolve_conflicts, make_commit, runCmd, seqE, h0, h1,
      h2, h3, h4, h5, h6]
  · simp [pull_and_resolve_conflicts, runCmd, seqE, h0, h1, h2, hc0, hc1]

/-- An environment whose first merge hits the conflict returncode 1 and
whose retried merge succeeds. -/
def envMergeConflict : Env :=
  ⟨true, [], "", fun k => if k = 2 then 1 else 0⟩

/-- Witness for C2: the conflict branch on a concrete environment — one
checkpoint commit, one merge re-run, no error. -/
theorem pull_and_resolve_retry_policy_witness :
    pull_and_resolve_conflicts gDemo envMergeConflict ⟨0, []⟩ =
      (⟨8, [gitCheckoutBranchCmd gDemo.branch_name, gitFetchCmd,
        gitMergeCmd gDemo.branch_name, gitAddCmd, gitConfigEmailCmd,
        gitConfigNameCmd, gitCommitCmd, gitMergeCmd gDemo.branch_name]⟩,
       if envMergeConflict.exit 7 = 0 then none
       else some ⟨gitMergeCmd gDemo.branch_name, envMergeConflict.exit 7⟩) :=
  (pull_and_resolve_retry_policy gDemo envMergeConflict rfl rfl).2.1
    rfl rfl rfl rfl rfl

/-! ## C1: the orchestration of pull_from_remote -/

/-- A successful `_make_commit` appends its four commands. -/
theorem make_commit_all_ok (g : GitAutoSync) (env : Env)
    (h : ∀ k, env.exit k = 0) (s : RunState) :
    make_commit g env s =
      (⟨s.k + 4, s.trace ++
        [gitAddCmd, gitConfigEmailCmd, gitConfigNameCmd, gitCommitCmd]⟩,
       none) := by
  simp [make_commit, runCmd, seqE, h, Nat.add_assoc]

/-- A successful `_save_local_changes` appends its five commands. -/
theorem save_all_ok (g : GitAutoSync) (env : Env)
    (h : ∀ k, env.exit k = 0) (s : RunState) :
    save_local_changes g env s =
      (⟨s.k + 5, s.trace ++ saveTrace g.branch_name⟩, none) := by
  simp [save_local_changes, make_commit, runCmd, seqE, h, saveTrace,
    Nat.add_assoc]

/-- A conflict-free `_pull_and_resolve_conflicts` appends checkout,
fetch, merge. -/
theorem pull_all_ok (g : GitAutoSync) (env : Env)
    (h : ∀ k, env.exit k = 0) (s : RunState) :
    pull_and_resolve_conflicts g env s =
      (⟨s.k + 3, s.trace ++ pullOkTrace g.branch_name⟩, none) := by
  simp [pull_and_resolve_conflicts, runCmd, seqE, h, pullOkTrace,
    Nat.add_assoc]

/-- A fully successful reset loop issues fetch, existence check and
restore for each deleted file in order. -/
theorem reset_loop_all_ok (g : GitAutoSync) (env : Env)
    (h : ∀ k, env.exit k = 0) :
    ∀ (fs : List String) (s : RunState),
      reset_deleted_files_loop g env fs s =
        (⟨s.k + 3 * fs.length, s.trace ++ resetOkTrace g.branch_name fs⟩,
         none) := by
  intro fs
  induction fs with
  | nil =>
    intro s
    simp [reset_deleted_files_loop, resetOkTrace]
  | cons f rest ih =>
    intro s
    simp [reset_deleted_files_loop, reset_one_file,
      raise_error_if_git_file_not_exists, runCmd, seqE, h, ih, resetOkTrace]
    omega

/-- C1: when the local directory does not exist, the run performs the
clone followed by the checkout of the requested branch and nothing else;
otherwise it performs, in strict order, the deleted-file reset, then the
save-local-changes block exactly when the dirtiness re-check classifies
the tree dirty, then pull-and-resolve.  Stated for runs whose external
commands all succeed. -/
theorem pull_from_remote_orchestration (g : GitAutoSync) (env : Env)
    (hall : ∀ k, env.exit k = 0) :
    (env.repoExists = false →
      pull_from_remote g env ⟨0, []⟩ =
        (⟨2, [gitCloneCmd g.git_url g.repo_dir,
          gitCheckoutBranchCmd g.branch_name]⟩, none)) ∧
    (env.repoExists = true →
      (pull_from_remote g env ⟨0, []⟩).1.trace =
        resetOkTrace g.branch_name env.deletedFiles ++
        ((if repo_is_dirty env.porcelain then saveTrace g.branch_name
          else []) ++ pullOkTrace g.branch_name) ∧
      (pull_from_remote g env ⟨0, []⟩).2 = none) := by
  constructor
  · intro hre
    simp [pull_from_remote, hre, initialize_repo, runCmd, seqE, hall]
  · intro hre
    have hreset := reset_loop_all_ok g env hall env.deletedFiles ⟨0, []⟩
    by_cases hd : repo_is_dirty env.porcelain
    · simp [pull_from_remote, hre, update_repo, reset_deleted_files,
        hreset, seqE, hd, save_all_ok g env hall, pull_all_ok g env hall,
        List.append_assoc]
    · simp [pull_from_remote, hre, update_repo, reset_deleted_files,
        hreset, seqE, hd, pull_all_ok g env hall, List.append_assoc]

/-- A dirty tree with one deleted file, every command succeeding. -/
def envUpdateDirty : Env := ⟨true, ["a.txt"], " M b.txt\n", fun _ => 0⟩

/-- Witness for C1 on a concrete dirty update run. -/
theorem pull_from_remote_orchestration_witness :
    (pull_from_remote gDemo envUpdateDirty ⟨0, []⟩).1.trace =
      resetOkTrace gDemo.branch_name envUpdateDirty.deletedFiles ++
      ((if repo_is_dirty envUpdateDirty.porcelain then
          saveTrace gDemo.branch_name
        else []) ++ pullOkTrace gDemo.branch_name) ∧
    (pull_from_remote gDemo envUpdateDirty ⟨0, []⟩).2 = none :=
  (pull_from_remote_orchestration gDemo envUpdateDirty (fun _ => rfl)).2 rfl

/-! ## Lemmas on the execute_cmd line splitter -/

/-- A buffer that never received a newline does not end in one. -/
theorem getLast?_not_newline (buf : List Char) (h : '\n' ∉ buf) :
    (buf.getLast? == some '\n') = false := by
  cases hb : buf.getLast? with
  | none => rfl
  | some a =>
    have ha : a ∈ buf := List.mem_of_mem_getLast? (by rw [hb]; rfl)
    have hne : a ≠ '\n' := fun hh => h (hh ▸ ha)
    simp [hne]

/-- Every yielded line is nonempty and ends at a newline boundary or at
a carriage-return progress boundary. -/
theorem splitCRLF_line_endings :
    ∀ (input buf : List Char) (last : Option Char),
      (buf ≠ [] → buf.getLast? = last) →
      ∀ l ∈ splitCRLF input buf last,
        l ≠ [] ∧ (l.getLast? = some '\n' ∨ l.getLast? = some '\r') := by
  intro input
  induction input with
  | nil =>
    intro buf last hinv l hl
    simp [splitCRLF] at hl
  | cons c rest ih =>
    intro buf last hinv l hl
    by_cases hcr : last = some '\r' ∧ buf ≠ [] ∧ c ≠ '\n'
    · simp only [splitCRLF, if_pos hcr] at hl
      rcases List.mem_cons.mp hl with rfl | hl
      · exact ⟨hcr.2.1, Or.inr (by rw [hinv hcr.2.1, hcr.1])⟩
      · exact ih [c] (some c) (fun _ => rfl) l hl
    · simp only [splitCRLF, if_neg hcr] at hl
      by_cases hn : c = '\n'
      · rw [if_pos hn] at hl
        rcases List.mem_cons.mp hl with rfl | hl
        · subst hn
          exact ⟨by simp, Or.inl (List.getLast?_concat _)⟩
        · exact ih [] (some c) (fun hne => absurd rfl hne) l hl
      · rw [if_neg hn] at hl
        exact ih (buf ++ [c]) (some c) (fun _ => List.getLast?_concat _) l hl

/-- A newline-terminated line is yielded for every newline of the
output: the count of newline-terminated yielded lines equals the count
of newline characters read. -/
theorem splitCRLF_newline_count :
    ∀ (input buf : List Char) (last : Option Char), '\n' ∉ buf →
      (splitCRLF input buf last).countP (fun l => l.getLast? == some '\n') =
        input.count '\n' := by
  intro input
  induction input with
  | nil =>
    intro buf last hb
    simp [splitCRLF]
  | cons c rest ih =>
    intro buf last hb
    by_cases hcr : last = some '\r' ∧ buf ≠ [] ∧ c ≠ '\n'
    · have hc : c ≠ '\n' := hcr.2.2
      have hbl : (buf.getLast? == some '\n') = false := getLast?_not_newline buf hb
      simp only [splitCRLF, if_pos hcr, List.countP_cons, hbl]
      rw [ih [c] (some c)
        (fun hm => hc (List.mem_singleton.mp hm).symm)]
      simp [List.count_cons, hc]
    · by_cases hn : c = '\n'
      · subst hn
        simp only [splitCRLF, if_neg hcr, if_true, List.countP_cons]
        rw [ih [] (some '\n') (by simp)]
        simp [List.count_cons, List.getLast?_concat]
      · simp only [splitCRLF, if_neg hcr, if_neg hn]
        rw [ih (buf ++ [c]) (some c) (fun hm => by
          rcases List.mem_append.mp hm with h | h
          · exact hb h
          · exact hn (List.mem_singleton.mp h).symm)]
        simp [List.count_cons, hn]

/-- Nothing is invented or reordered: the yielded lines followed by the
unflushed buffer reconstruct the buffer plus the whole output. -/
theorem splitCRLF_flatten :
    ∀ (input buf : List Char) (last : Option Char),
      (splitCRLF input buf last).flatten ++ finalBuf input buf last =
        buf ++ input := by
  intro input
  induction input with
  | nil =>
    intro buf last
    simp [splitCRLF, finalBuf]
  | cons c rest ih =>
    intro buf last
    by_cases hcr : last = some '\r' ∧ buf ≠ [] ∧ c ≠ '\n'
    · simp only [splitCRLF, finalBuf, if_pos hcr, List.flatten_cons,
        List.append_assoc]
      rw [ih [c] (some c)]
      simp
    · by_cases hn : c = '\n'
      · simp only [splitCRLF, finalBuf, if_neg hcr, if_pos hn,
          List.flatten_cons, List.append_assoc]
        rw [ih [] (some c)]
        simp
      · simp only [splitCRLF, finalBuf, if_neg hcr, if_neg hn]
        rw [ih (buf ++ [c]) (some c)]
        simp

/-- When the output ends with a character other than a newline, the
final buffer is nonempty: the trailing chunk stays unflushed. -/
theorem finalBuf_append_ne_nil :
    ∀ (input buf : List Char) (last : Option Char) (c : Char), c ≠ '\n' →
      finalBuf (input ++ [c]) buf last ≠ [] := by
  intro input
  induction input with
  | nil =>
    intro buf last c hc
    simp only [List.nil_append, finalBuf]
    by_cases hcr : last = some '\r' ∧ buf ≠ [] ∧ c ≠ '\n'
    · simp [if_pos hcr, finalBuf]
    · simp [if_neg hcr, if_neg hc, finalBuf]
  | cons d rest ih =>
    intro buf last c hc
    simp only [List.cons_append, finalBuf]
    by_cases hcr : last = some '\r' ∧ buf ≠ [] ∧ d ≠ '\n'
    · rw [if_pos hcr]
      exact ih _ _ c hc
    · rw [if_neg hcr]
      by_cases hn : d = '\n'
      · rw [if_pos hn]
        exact ih _ _ c hc
      · rw [if_neg hn]
        exact ih _ _ c hc

/-! ## C6: the execute_cmd output contract -/

/-- Counterexample to C6 as stated: a combined output consisting of one
carriage-return-terminated progress update with no further output —
nothing beyond the echo line is yielded for it, because a CR flush only
happens when the following character arrives. -/
theorem trailing_cr_update_dropped_counterexample :
    (execute_cmd ["git", "fetch"] ['p', '\r'] 0).lines = ["$ git fetch\n"] ∧
    ['p', '\r'].getLast? = some '\r' := by
  constructor
  · rfl
  · rfl

/-- C6 amended: the output sequence begins with exactly one line echoing
the command, followed by the combined output split into lines, with a
line emitted at every newline boundary and at every carriage-return
progress update that is followed by further output (a CR-terminated
update at the very end of the stream stays in the buffer and is
dropped); a nonzero exit raises an error carrying the command and the
exit code, a zero exit raises nothing. -/
theorem execute_cmd_contract (cmd : Cmd) (output : List Char) (ret : Nat) :
    (execute_cmd cmd output ret).lines =
      ("$ " ++ String.intercalate " " cmd ++ "\n") ::
        (splitCRLF output [] none).map String.mk ∧
    (∀ l ∈ splitCRLF output [] none,
      l ≠ [] ∧ (l.getLast? = some '\n' ∨ l.getLast? = some '\r')) ∧
    (splitCRLF output [] none).countP (fun l => l.getLast? == some '\n') =
      output.count '\n' ∧
    splitCRLF ('p' :: '1' :: '\r' :: 'p' :: '2' :: '\r' :: 'o' :: 'k' ::
        '\n' :: []) [] none =
      [['p', '1', '\r'], ['p', '2', '\r'], ['o', 'k', '\n']] ∧
    (ret ≠ 0 → (execute_cmd cmd output ret).error = some ⟨cmd, ret⟩) ∧
    (ret = 0 → (execute_cmd cmd output ret).error = none) := by
  refine ⟨rfl, splitCRLF_line_endings output [] none (fun h => absurd rfl h),
    splitCRLF_newline_count output [] none (by simp), by decide,
    fun h => by simp [execute_cmd, h], fun h => by simp [execute_cmd, h]⟩

/-- Witness for C6 (amended): a concrete failing command carries its
argv and exit code. -/
theorem execute_cmd_contract_witness :
    (execute_cmd ["git", "fetch"] ['x', '\n'] 2).error =
      some ⟨["git", "fetch"], 2⟩ :=
  (execute_cmd_contract ["git", "fetch"] ['x', '\n'] 2).2.2.2.2.1 (by decide)

/-! ## C9: the trailing partial line is dropped -/

/-- C9: when the final output chunk is not newline-terminated, the
yielded lines reconstruct only a proper prefix of the output — the
buffered tail is nonempty and never yielded — and the yielded lines do
not depend on the exit status, so the tail is dropped on success and on
failure alike. -/
theorem trailing_partial_output_dropped (cmd : Cmd) (output : List Char)
    (c : Char) (hc : c ≠ '\n') (ret : Nat) :
    (splitCRLF (output ++ [c]) [] none).flatten ++
      finalBuf (output ++ [c]) [] none = output ++ [c] ∧
    finalBuf (output ++ [c]) [] none ≠ [] ∧
    (splitCRLF (output ++ [c]) [] none).flatten ≠ output ++ [c] ∧
    (execute_cmd cmd (output ++ [c]) ret).lines =
      (execute_cmd cmd (output ++ [c]) 0).lines := by
  have h1 : (splitCRLF (output ++ [c]) [] none).flatten ++
      finalBuf (output ++ [c]) [] none = output ++ [c] := by
    simpa using splitCRLF_flatten (output ++ [c]) [] none
  have h2 := finalBuf_append_ne_nil output [] none c hc
  refine ⟨h1, h2, fun heq => h2 ?_, rfl⟩
  rw [heq] at h1
  have hlen := congrArg List.length h1
  simp [List.length_append] at hlen
  exact hlen

/-- Witness for C9 at a concrete output with an unterminated tail. -/
theorem trailing_partial_output_dropped_witness :
    (splitCRLF (['o', 'k'] ++ ['!']) [] none).flatten ++
      finalBuf (['o', 'k'] ++ ['!']) [] none = ['o', 'k'] ++ ['!'] ∧
    finalBuf (['o', 'k'] ++ ['!']) [] none ≠ [] ∧
    (splitCRLF (['o', 'k'] ++ ['!']) [] none).flatten ≠ ['o', 'k'] ++ ['!'] ∧
    (execute_cmd ["git"] (['o', 'k'] ++ ['!']) 3).lines =
      (execute_cmd ["git"] (['o', 'k'] ++ ['!']) 0).lines :=
  trailing_partial_output_dropped ["git"] ['o', 'k'] '!' (by decide) 3

/-! ## Lemmas on the dirtiness regex -/

theorem isPyWS_newline : isPyWS '\n' = true := by decide

/-- The anchor matcher and the per-line matcher compute the same
function; on a newline-free line they agree by construction, and the
anchor matcher is only ever compared against lines through the
decomposition lemmas below. -/
theorem modAnchorMatch_eq (cs : List Char) :
    modAnchorMatch cs = lineIsModified cs := rfl

theorem modAnchorMatch_cons_ws (c : Char) (cs : List Char)
    (hw : isPyWS c = true) : modAnchorMatch (c :: cs) = modAnchorMatch cs := by
  simp [modAnchorMatch, List.dropWhile_cons, hw]

theorem lineIsModified_cons_ws (c : Char) (cs : List Char)
    (hw : isPyWS c = true) : lineIsModified (c :: cs) = lineIsModified cs := by
  simp [lineIsModified, List.dropWhile_cons, hw]

theorem lineIsBareM_cons_ws (c : Char) (cs : List Char)
    (hw : isPyWS c = true) : lineIsBareM (c :: cs) = lineIsBareM cs := by
  simp [lineIsBareM, List.dropWhile_cons, hw]

theorem splitLines_ne_nil (cs : List Char) : splitLines cs ≠ [] := by
  cases cs with
  | nil => simp [splitLines]
  | cons c rest =>
    simp only [splitLines]
    by_cases h : c = '\n'
    · simp [h]
    · rw [if_neg h]
      cases splitLines rest <;> simp

theorem splitLines_append (l0 rest : List Char) (h : '\n' ∉ l0) :
    splitLines (l0 ++ '\n' :: rest) = l0 :: splitLines rest := by
  induction l0 with
  | nil => simp [splitLines]
  | cons c l ih =>
    have hc : c ≠ '\n' := fun hh => h (by subst hh; exact List.mem_cons_self _ _)
    have hl : '\n' ∉ l := fun hh => h (List.mem_cons_of_mem _ hh)
    simp only [List.cons_append, splitLines, if_neg hc, List.append_eq]
    rw [ih hl]

theorem splitLines_no_newline (cs : List Char) (h : '\n' ∉ cs) :
    splitLines cs = [cs] := by
  induction cs with
  | nil => rfl
  | cons c l ih =>
    have hc : c ≠ '\n' := fun hh => h (by subst hh; exact List.mem_cons_self _ _)
    have hl : '\n' ∉ l := fun hh => h (List.mem_cons_of_mem _ hh)
    simp only [splitLines, if_neg hc, ih hl]

theorem searchFrom_no_newline (cs : List Char) (h : '\n' ∉ cs) :
    searchFrom cs = false := by
  induction cs with
  | nil => rfl
  | cons c l ih =>
    have hc : c ≠ '\n' := fun hh => h (by subst hh; exact List.mem_cons_self _ _)
    have hl : '\n' ∉ l := fun hh => h (List.mem_cons_of_mem _ hh)
    simp [searchFrom, hc, ih hl]

theorem searchFrom_append (l0 rest : List Char) (h : '\n' ∉ l0) :
    searchFrom (l0 ++ '\n' :: rest) = (modAnchorMatch rest || searchFrom rest) := by
  induction l0 with
  | nil => simp [searchFrom]
  | cons c l ih =>
    have hc : c ≠ '\n' := fun hh => h (by subst hh; exact List.mem_cons_self _ _)
    have hl : '\n' ∉ l := fun hh => h (List.mem_cons_of_mem _ hh)
    simp [searchFrom, hc, ih hl]

/-- How the anchor matcher crosses the boundary of the first line: a
match starting at the line start is a within-line match, a bare trailing
M matched against the newline itself, or — when the line is entirely
whitespace — a match carried into the following lines. -/
theorem modAnchorMatch_append (l0 rest : List Char) (h : '\n' ∉ l0) :
    modAnchorMatch (l0 ++ '\n' :: rest) =
      (lineIsModified l0 || (lineIsBareM l0 ||
        (l0.all isPyWS && modAnchorMatch rest))) := by
  induction l0 with
  | nil =>
    rw [List.nil_append, modAnchorMatch_cons_ws '\n' rest isPyWS_newline]
    simp [lineIsModified, lineIsBareM]
  | cons c l ih =>
    have hc : c ≠ '\n' := fun hh => h (by subst hh; exact List.mem_cons_self _ _)
    have hl : '\n' ∉ l := fun hh => h (List.mem_cons_of_mem _ hh)
    by_cases hw : isPyWS c = true
    · rw [List.cons_append, modAnchorMatch_cons_ws c _ hw,
        lineIsModified_cons_ws c l hw, lineIsBareM_cons_ws c l hw,
        List.all_cons, hw, Bool.true_and]
      exact ih hl
    · rw [Bool.not_eq_true] at hw
      cases l with
      | nil =>
        simp [modAnchorMatch, lineIsModified, lineIsBareM,
          List.dropWhile_cons, hw, List.all_cons, isPyWS_newline]
      | cons d l' =>
        simp [modAnchorMatch, lineIsModified, lineIsBareM,
          List.dropWhile_cons, hw, List.all_cons]

/-- Every text either contains no newline or splits off a newline-free
first line. -/
theorem newline_split (cs : List Char) :
    ('\n' ∉ cs) ∨ ∃ l0 rest, cs = l0 ++ '\n' :: rest ∧ '\n' ∉ l0 := by
  induction cs with
  | nil => exact Or.inl (by simp)
  | cons c rest ih =>
    by_cases hc : c = '\n'
    · exact Or.inr ⟨[], rest, by rw [hc]; rfl, by simp⟩
    · rcases ih with h | ⟨l0, r, rfl, hl0⟩
      · refine Or.inl ?_
        intro hm
        rcases List.mem_cons.mp hm with h1 | h1
        · exact hc h1.symm
        · exact h h1
      · refine Or.inr ⟨c :: l0, r, rfl, ?_⟩
        intro hm
        rcases List.mem_cons.mp hm with h1 | h1
        · exact hc h1.symm
        · exact hl0 h1

/-- The Boolean bookkeeping of the line-decomposition step. -/
theorem bool_or_step (a b w m sf x y : Bool) (h : (m || sf) = (x || y)) :
    ((a || (b || (w && m))) || (m || sf)) = ((a || x) || (b || y)) := by
  cases a <;> cases b <;> cases w <;> cases m <;> cases sf <;> simp_all

/-- The exact line-level characterization of the MULTILINE regex search:
it succeeds iff some line matches the within-line modified pattern, or
some non-final line is optional whitespace followed by a bare M (the
cross-line match through the newline). -/
theorem regex_linewise_fuel :
    ∀ (n : Nat) (cs : List Char), cs.length ≤ n →
      regexSearchModified cs =
        ((splitLines cs).any lineIsModified ||
         (splitLines cs).dropLast.any lineIsBareM) := by
  intro n
  induction n with
  | zero =>
    intro cs hlen
    have h0 : cs = [] := List.length_eq_zero.mp (Nat.le_zero.mp hlen)
    subst h0
    rfl
  | succ n ih =>
    intro cs hlen
    rcases newline_split cs with hno | ⟨l0, rest, rfl, hl0⟩
    · simp only [regexSearchModified]
      rw [searchFrom_no_newline cs hno, splitLines_no_newline cs hno]
      simp [modAnchorMatch_eq]
    · have hrest : rest.length ≤ n := by
        have hh := hlen
        simp [List.length_append] at hh
        omega
      simp only [regexSearchModified]
      rw [modAnchorMatch_append l0 rest hl0, searchFrom_append l0 rest hl0,
        splitLines_append l0 rest hl0,
        List.dropLast_cons_of_ne_nil (splitLines_ne_nil rest),
        List.any_cons, List.any_cons]
      have hrec := ih rest hrest
      simp only [regexSearchModified] at hrec
      exact bool_or_step _ _ _ _ _ _ _ hrec

/-! ## C4: the dirtiness classification -/

/-- Counterexample to C4 as stated: on the output "M" followed by a
newline, the regex search succeeds — its whitespace class matches the
newline itself as the required whitespace after M — although no single
line of the output matches the claimed line pattern. -/
theorem repo_dirty_cross_line_counterexample :
    repo_is_dirty "M\n" = true ∧
    (splitLines ("M\n").data).any lineIsModified = false := by
  exact ⟨rfl, rfl⟩

/-- C4 amended: repo_is_dirty is true iff the output contains a line of
optional leading whitespace, the letter M, whitespace, then the
(possibly empty) path, or a non-final line consisting of optional
whitespace followed by a bare trailing M, which the regex matches across
the newline; in particular untracked-only output is classified not
dirty, and output with a staged or tracked modification line is
classified dirty. -/
theorem repo_is_dirty_characterization (out : String) :
    repo_is_dirty out =
      ((splitLines out.data).any lineIsModified ||
       (splitLines out.data).dropLast.any lineIsBareM) ∧
    repo_is_dirty "?? untracked.txt\n" = false ∧
    repo_is_dirty " M modified.txt\n" = true ∧
    repo_is_dirty "M  staged.txt\n" = true := by
  refine ⟨?_, by decide, by decide, by decide⟩
  exact regex_linewise_fuel out.data.length out.data le_rfl

example : repo_is_dirty " M foo.txt\n" = true := by decide
example : repo_is_dirty "?? foo.txt\n" = false := by decide
example : repo_is_dirty "M\n" = true := by decide
example : splitCRLF ['a', '\r', 'b', '\n', 'c'] [] none =
    [['a', '\r'], ['b', '\n']] := by decide
